import Mathlib

/-! The singly linked list of `leran_advanced.c` (Level 11).

A shallow embedding of `create_node`, `print_list`, `insert_at_front`,
`free_list` and `level_11_linked_list`, over an explicit memory of `Node_t`
blocks, together with the properties of these functions.

Memory model.  A pointer is `none` (the C `NULL`) or `some a`, the address of
a block.  The memory is the list of all blocks ever handed out by `malloc`,
block `a` being entry `a`; a block is `live` (it holds a `Node_t`) or
`freed`.  `malloc` either fails or hands out a block with a new address and
indeterminate contents; addresses are never reused.  Reading or writing
through `NULL`, through a released block or through an address that was never
handed out is undefined behaviour in C and is a `Fault` here.

The loops of `print_list` and `free_list` take a bound on the number of
iterations of the loop body (`fuel`); running out of it is the distinct
result `Fault.outOfFuel`.
-/

namespace LinkedList

/-- A pointer to a node: `none` is `NULL`, `some a` is the block with address `a`. -/
abbrev Ptr := Option Nat

/-- The C struct `Node_t`: `int data; struct Node *next;`. -/
structure Node_t where
  data : Int
  next : Ptr
  deriving DecidableEq, Repr

/-- One block of memory: it holds a node, or it has been passed to `free`. -/
inductive Cell where
  | live (n : Node_t)
  | freed
  deriving DecidableEq, Repr

/-- Ways in which an execution leaves defined behaviour, or exhausts its loop bound. -/
inductive Fault where
  | nullDeref
  | useAfterFree
  | wildPointer
  | outOfFuel
  deriving DecidableEq, Repr

/-- The state of the program: the memory, the text written to standard output
and the addresses passed to `free` so far, in call order. -/
structure State where
  heap : List Cell
  out : String
  freeLog : List Nat
  deriving DecidableEq, Repr

/-- What one call of `malloc(sizeof(Node_t))` does: it returns `NULL`, or it
hands out a new block whose contents are indeterminate (`junk`). -/
inductive MallocOutcome where
  | fails
  | succeeds (junk : Node_t)
  deriving DecidableEq, Repr

deriving instance DecidableEq for Except

/-- The text `printf("%d", v)` writes. -/
def fmt_d (v : Int) : String := toString v

/-- The call `printf(text)` for a text without conversions. -/
def printf (s : State) (text : String) : State :=
  { s with out := s.out ++ text }

/-- The call `malloc(sizeof(Node_t))`. -/
def malloc (m : MallocOutcome) (s : State) : State × Ptr :=
  match m with
  | .fails => (s, none)
  | .succeeds junk => ({ s with heap := s.heap ++ [Cell.live junk] }, some s.heap.length)

/-- Reading the node `*p`. -/
def deref (h : List Cell) : Ptr → Except Fault Node_t
  | none => .error .nullDeref
  | some a =>
    match h[a]? with
    | some (.live n) => .ok n
    | some .freed => .error .useAfterFree
    | none => .error .wildPointer

/-- The assignment `p->data = v`. -/
def store_data (s : State) (p : Ptr) (v : Int) : Except Fault State :=
  match p with
  | none => .error .nullDeref
  | some a =>
    match s.heap[a]? with
    | some (.live n) => .ok { s with heap := s.heap.set a (.live { n with data := v }) }
    | some .freed => .error .useAfterFree
    | none => .error .wildPointer

/-- The assignment `p->next = q`. -/
def store_next (s : State) (p : Ptr) (q : Ptr) : Except Fault State :=
  match p with
  | none => .error .nullDeref
  | some a =>
    match s.heap[a]? with
    | some (.live n) => .ok { s with heap := s.heap.set a (.live { n with next := q }) }
    | some .freed => .error .useAfterFree
    | none => .error .wildPointer

/-- The call `free(p)`: nothing for `NULL`, otherwise the block is released and
the call is recorded in `freeLog`. -/
def free (s : State) (p : Ptr) : Except Fault State :=
  match p with
  | none => .ok s
  | some a =>
    match s.heap[a]? with
    | some (.live _) =>
      .ok { s with heap := s.heap.set a .freed, freeLog := s.freeLog ++ [a] }
    | some .freed => .error .useAfterFree
    | none => .error .wildPointer

/-- `Node_t* create_node(int data)`. -/
def create_node (m : MallocOutcome) (s : State) (data : Int) : Except Fault (State × Ptr) :=
  match malloc m s with
  | (s1, none) => .ok (printf s1 "Error: malloc failed in create_node\n", none)
  | (s1, some a) =>
    match store_data s1 (some a) data with
    | .error e => .error e
    | .ok s2 =>
      match store_next s2 (some a) none with
      | .error e => .error e
      | .ok s3 => .ok (s3, some a)

/-- The `while (current != NULL)` loop of `print_list`. -/
def print_list_loop : Nat → State → Ptr → Except Fault State
  | _, s, none => .ok s
  | 0, _, some _ => .error .outOfFuel
  | fuel + 1, s, some a =>
    match deref s.heap (some a) with
    | .error e => .error e
    | .ok n => print_list_loop fuel (printf s (fmt_d n.data ++ " -> ")) n.next

/-- `void print_list(Node_t *head)`. -/
def print_list (fuel : Nat) (s : State) (head : Ptr) : Except Fault State :=
  match print_list_loop fuel (printf s "List: [ ") head with
  | .error e => .error e
  | .ok s1 => .ok (printf s1 "NULL ]\n")

/-- `void insert_at_front(Node_t **head, int data)`; `head` is the value of
the caller's `*head` before the call, the returned pointer its value after. -/
def insert_at_front (m : MallocOutcome) (s : State) (head : Ptr) (data : Int) :
    Except Fault (State × Ptr) :=
  match create_node m s data with
  | .error e => .error e
  | .ok (s1, newNode) =>
    match store_next s1 newNode head with
    | .error e => .error e
    | .ok s2 => .ok (s2, newNode)

/-- The `while (current != NULL)` loop of `free_list`. -/
def free_list_loop : Nat → State → Ptr → Except Fault State
  | _, s, none => .ok s
  | 0, _, some _ => .error .outOfFuel
  | fuel + 1, s, some a =>
    match deref s.heap (some a) with
    | .error e => .error e
    | .ok n =>
      match free s (some a) with
      | .error e => .error e
      | .ok s1 => free_list_loop fuel s1 n.next

/-- `void free_list(Node_t *head)`; `head` is passed by value, so the function
returns a state only. -/
def free_list (fuel : Nat) (s : State) (head : Ptr) : Except Fault State :=
  match free_list_loop fuel (printf s "Freeing list memory...\n") head with
  | .error e => .error e
  | .ok s1 => .ok (printf s1 "List freed.\n")

/-- The statement `free_list(head);` in a caller whose local variable is
`head`: C passes the pointer by value, so the local keeps its value.  The
result is the state and the value of the caller's `head` after the call. -/
def call_free_list (fuel : Nat) (s : State) (head : Ptr) : Except Fault (State × Ptr) :=
  match free_list fuel s head with
  | .error e => .error e
  | .ok s1 => .ok (s1, head)

/-- A caller that applies `insert_at_front(&head, v)` for each entry of the
list in turn, the entry giving the outcome of the allocation and the value. -/
def insert_all : List (MallocOutcome × Int) → State → Ptr → Except Fault (State × Ptr)
  | [], s, head => .ok (s, head)
  | (m, v) :: rest, s, head =>
    match insert_at_front m s head v with
    | .error e => .error e
    | .ok (s1, head1) => insert_all rest s1 head1

/-- `void level_11_linked_list()`, given the outcomes of its three
allocations; the result is the final state and the value of the local
variable `head` when the function ends. -/
def level_11_linked_list (fuel : Nat) (m1 m2 m3 : MallocOutcome) (s : State) :
    Except Fault (State × Ptr) := do
  let s := printf s "\n--- Level 11: Full Data Structure: Linked List ---\n"
  let head : Ptr := none
  let s ← print_list fuel s head
  let (s, head) ← insert_at_front m1 s head 10
  let s ← print_list fuel s head
  let (s, head) ← insert_at_front m2 s head 20
  let s ← print_list fuel s head
  let (s, head) ← insert_at_front m3 s head 30
  let s ← print_list fuel s head
  call_free_list fuel s head

/-- `ListAt h p l`: in memory `h` the chain that starts at `p` consists of
exactly the nodes `l`, each given by its address and payload, from head to
tail, and its last successor is `NULL`. -/
def ListAt (h : List Cell) : Ptr → List (Nat × Int) → Prop
  | p, [] => p = none
  | p, (a, v) :: rest =>
    p = some a ∧
      match h[a]? with
      | some (.live n) => n.data = v ∧ ListAt h n.next rest
      | _ => False

instance ListAt.decide (h : List Cell) : ∀ (l : List (Nat × Int)) (p : Ptr), Decidable (ListAt h p l)
  | [], p => by unfold ListAt; infer_instance
  | (a, v) :: rest, p => by
    unfold ListAt
    have := fun q => ListAt.decide h rest q
    split <;> infer_instance

/-- The text `print_list` writes for the payloads `vs`, between the opening
and the end sentinel: `"v -> "` for each. -/
def render : List Int → String
  | [] => ""
  | v :: vs => fmt_d v ++ " -> " ++ render vs

/-- The memory after the blocks `as` have been released. -/
def release (h : List Cell) : List Nat → List Cell
  | [] => h
  | a :: as => release (h.set a .freed) as

/-- A state with empty memory and no output yet. -/
def init : State := ⟨[], "", []⟩

/-- The entries of `insert_all` when every allocation succeeds: each value
comes with the indeterminate contents of the block handed out for it. -/
def allSucceed (js : List (Node_t × Int)) : List (MallocOutcome × Int) :=
  js.map fun jv => (MallocOutcome.succeeds jv.1, jv.2)

/-- Following successor pointers from `p`, `NULL` is reached within `n` steps,
every node on the way being a live block. -/
def reachesNull (h : List Cell) : Nat → Ptr → Bool
  | _, none => true
  | 0, some _ => false
  | n + 1, some a =>
    match h[a]? with
    | some (.live nd) => reachesNull h n nd.next
    | _ => false

/-- The chain from `p` reaches `NULL` in finitely many steps. -/
def Acyclic (h : List Cell) (p : Ptr) : Prop := ∃ n, reachesNull h n p = true

end LinkedList

/-! `level_5_structs_memory` of `leran.c`.

Memory here holds two kinds of blocks, an array of `int` and a
`struct Student`.  A field or array entry that has not been assigned yet is
`none`; reading it is the fault `uninitRead`.  The `float` stored in `gpa` is
kept as the literal it was converted from: it is never read. -/

namespace Level5

/-- A pointer: `none` is `NULL`, `some a` is the block with address `a`. -/
abbrev Ptr := Option Nat

/-- A `float` value, given by the literal it is converted from. -/
inductive CFloat where
  | ofLiteral (text : String)
  deriving DecidableEq, Repr

/-- The C struct `Student`: `char name[50]; int id; float gpa;`.  `name` is
the string held in the array (without its terminating zero). -/
structure Student where
  name : Option String
  id : Option Int
  gpa : Option CFloat
  deriving DecidableEq, Repr

/-- One block handed out by `malloc`. -/
inductive Block where
  | ints (xs : List (Option Int))
  | student (st : Student)
  | freed
  deriving DecidableEq, Repr

/-- Ways in which an execution leaves defined behaviour, or exhausts its loop bound. -/
inductive Fault where
  | nullDeref
  | useAfterFree
  | wildPointer
  | outOfBounds
  | uninitRead
  | outOfFuel
  deriving DecidableEq, Repr

/-- The state of the program: the memory and the text written to standard output. -/
structure State where
  heap : List Block
  out : String
  deriving DecidableEq, Repr

/-- A state with empty memory and no output yet. -/
def init : State := ⟨[], ""⟩

/-- The call `printf(text)` for a text without conversions. -/
def printf (s : State) (text : String) : State :=
  { s with out := s.out ++ text }

/-- Reading a variable, field or array entry. -/
def rd {α : Type} : Option α → Except Fault α
  | none => .error .uninitRead
  | some x => .ok x

/-- A `struct Student` whose fields have not been assigned. -/
def Student.indeterminate : Student := ⟨none, none, none⟩

/-- The call `strcpy(st.name, src)` into the 50 bytes of `name`. -/
def strcpy_name (st : Student) (src : String) : Except Fault Student :=
  if src.length + 1 ≤ 50 then .ok { st with name := some src } else .error .outOfBounds

/-- The call `malloc(n * sizeof(int))`; `ok` says whether it succeeds. -/
def malloc_ints (ok : Bool) (n : Nat) (s : State) : State × Ptr :=
  if ok then ({ s with heap := s.heap ++ [Block.ints (List.replicate n none)] },
    some s.heap.length)
  else (s, none)

/-- The call `malloc(sizeof(Student_t))`; `ok` says whether it succeeds. -/
def malloc_student (ok : Bool) (s : State) : State × Ptr :=
  if ok then ({ s with heap := s.heap ++ [Block.student Student.indeterminate] },
    some s.heap.length)
  else (s, none)

/-- The assignment `p[i] = v` for `int *p`. -/
def store_int (s : State) (p : Ptr) (i : Nat) (v : Int) : Except Fault State :=
  match p with
  | none => .error .nullDeref
  | some a =>
    match s.heap[a]? with
    | some (.ints xs) =>
      if i < xs.length then .ok { s with heap := s.heap.set a (.ints (xs.set i (some v))) }
      else .error .outOfBounds
    | some (.student _) => .error .wildPointer
    | some .freed => .error .useAfterFree
    | none => .error .wildPointer

/-- Reading `p[i]` for `int *p`. -/
def load_int (s : State) (p : Ptr) (i : Nat) : Except Fault Int :=
  match p with
  | none => .error .nullDeref
  | some a =>
    match s.heap[a]? with
    | some (.ints xs) =>
      match xs[i]? with
      | some x => rd x
      | none => .error .outOfBounds
    | some (.student _) => .error .wildPointer
    | some .freed => .error .useAfterFree
    | none => .error .wildPointer

/-- Reading the struct `*p` for `Student_t *p`. -/
def load_student (s : State) (p : Ptr) : Except Fault Student :=
  match p with
  | none => .error .nullDeref
  | some a =>
    match s.heap[a]? with
    | some (.student st) => .ok st
    | some (.ints _) => .error .wildPointer
    | some .freed => .error .useAfterFree
    | none => .error .wildPointer

/-- Writing the struct `*p` for `Student_t *p`. -/
def store_student (s : State) (p : Ptr) (st : Student) : Except Fault State :=
  match p with
  | none => .error .nullDeref
  | some a =>
    match s.heap[a]? with
    | some (.student _) => .ok { s with heap := s.heap.set a (.student st) }
    | some (.ints _) => .error .wildPointer
    | some .freed => .error .useAfterFree
    | none => .error .wildPointer

/-- The call `strcpy(p->name, src)`. -/
def strcpy_ptr_name (s : State) (p : Ptr) (src : String) : Except Fault State :=
  match load_student s p with
  | .error e => .error e
  | .ok st =>
    match strcpy_name st src with
    | .error e => .error e
    | .ok st1 => store_student s p st1

/-- The assignment `p->id = v`. -/
def store_id (s : State) (p : Ptr) (v : Int) : Except Fault State :=
  match load_student s p with
  | .error e => .error e
  | .ok st => store_student s p { st with id := some v }

/-- The call `free(p)`. -/
def free (s : State) (p : Ptr) : Except Fault State :=
  match p with
  | none => .ok s
  | some a =>
    match s.heap[a]? with
    | some .freed => .error .useAfterFree
    | some _ => .ok { s with heap := s.heap.set a .freed }
    | none => .error .wildPointer

/-- The loop `for (int i = 0; i < size; i++) dynamicArray[i] = i * 10;`, from
the current `i`. -/
def fill_loop (size : Nat) (dynamicArray : Ptr) : Nat → Nat → State → Except Fault State
  | 0, i, s => if i < size then .error .outOfFuel else .ok s
  | fuel + 1, i, s =>
    if i < size then
      match store_int s dynamicArray i (i * 10) with
      | .error e => .error e
      | .ok s1 => fill_loop size dynamicArray fuel (i + 1) s1
    else .ok s

/-- The loop `for (int i = 0; i < size; i++) printf("%d ", dynamicArray[i]);`,
from the current `i`. -/
def show_loop (size : Nat) (dynamicArray : Ptr) : Nat → Nat → State → Except Fault State
  | 0, i, s => if i < size then .error .outOfFuel else .ok s
  | fuel + 1, i, s =>
    if i < size then
      match load_int s dynamicArray i with
      | .error e => .error e
      | .ok x => show_loop size dynamicArray fuel (i + 1) (printf s (LinkedList.fmt_d x ++ " "))
    else .ok s

/-- `void level_5_structs_memory()`; `m1` and `m2` say whether the allocation
of `dynamicArray` and of `s3_ptr` succeed, `fuel` bounds the iterations of
each `for` loop. -/
def level_5_structs_memory (fuel : Nat) (m1 m2 : Bool) (s : State) : Except Fault State := do
  let s := printf s "\n--- Level 5: Structs & Memory Management ---\n"
  let s1 := Student.indeterminate
  let s1 ← strcpy_name s1 "Ahmed"
  let s1 := { s1 with id := some 101 }
  let s1 := { s1 with gpa := some (CFloat.ofLiteral "3.8") }
  let s1_name ← rd s1.name
  let s1_id ← rd s1.id
  let s := printf s
    ("Student (s1) Name: " ++ s1_name ++ ", ID: " ++ LinkedList.fmt_d s1_id ++ "\n")
  let s2 := Student.indeterminate
  let s2 ← strcpy_name s2 "Fatima"
  let _s2 := { s2 with id := some 102 }
  let size : Nat := 5
  let (s, dynamicArray) := malloc_ints m1 size s
  if dynamicArray = none then
    return printf s "Failed to allocate memory!\n"
  let s ← fill_loop size dynamicArray fuel 0 s
  let s := printf s "Dynamic Array: "
  let s ← show_loop size dynamicArray fuel 0 s
  let s := printf s "\n"
  let s ← free s dynamicArray
  let (s, s3_ptr) := malloc_student m2 s
  let s ← strcpy_ptr_name s s3_ptr "Ali"
  let s ← store_id s s3_ptr 103
  let s3 ← load_student s s3_ptr
  let s3_name ← rd s3.name
  let s3_id ← rd s3.id
  let s := printf s
    ("Student (s3_ptr): " ++ s3_name ++ ", ID: " ++ LinkedList.fmt_d s3_id ++ "\n")
  free s s3_ptr

end Level5

/-! The storage-class demonstration of `leran_advanced.c` (Level 10).

The objects with static storage duration, `file_scope_var` and the local
`counter` of `static_counter_function`, are fields of the state: they are
initialised once, before `main` starts, and keep their value between calls.
`int` is taken to be 32 bits wide; `counter++` at `INT_MAX` is undefined
behaviour and is the result `none`. -/

namespace Storage

/-- The static objects and the text written to standard output. -/
structure State where
  file_scope_var : Int
  counter : Int
  out : String
  deriving DecidableEq, Repr

/-- The largest `int`. -/
def INT_MAX : Int := 2147483647

/-- The state when `main` starts: `static int file_scope_var = 100;` and
`static int counter = 0;` have been initialised, nothing has been written. -/
def program_start : State := ⟨100, 0, ""⟩

/-- The call `printf(text)` for a text without conversions. -/
def printf (s : State) (text : String) : State :=
  { s with out := s.out ++ text }

/-- `void static_counter_function()`. -/
def static_counter_function (s : State) : Option State :=
  if s.counter < INT_MAX then
    let s := { s with counter := s.counter + 1 }
    some (printf s ("Static counter is now: " ++ LinkedList.fmt_d s.counter ++ "\n"))
  else none

/-- `void level_10_storage_cli()`. -/
def level_10_storage_cli (s : State) : Option State := do
  let s := printf s "\n--- Level 10: Storage Classes & CLI Arguments ---\n"
  let s := printf s
    ("File-scope static var: " ++ LinkedList.fmt_d s.file_scope_var ++ "\n")
  let s := printf s "Calling static_counter_function 3 times:\n"
  let s ← static_counter_function s
  let s ← static_counter_function s
  let s ← static_counter_function s
  return printf s "See the 'main' function for the CLI argument demo.\n"

/-- The first `n` calls of `static_counter_function`, one after the other. -/
def calls : Nat → State → Option State
  | 0, s => some s
  | n + 1, s =>
    match calls n s with
    | none => none
    | some s1 => static_counter_function s1

/-- The lines written by the first `n` calls of `static_counter_function`. -/
def counter_lines : Nat → String
  | 0 => ""
  | n + 1 => counter_lines n ++ "Static counter is now: " ++ LinkedList.fmt_d (n + 1) ++ "\n"

end Storage

namespace LinkedList

/-! ## Facts about `ListAt` -/

theorem ListAt_nil_iff (h : List Cell) (p : Ptr) : ListAt h p [] ↔ p = none := by
  simp [ListAt]

theorem ListAt_cons_iff (h : List Cell) (p : Ptr) (a : Nat) (v : Int) (rest : List (Nat × Int)) :
    ListAt h p ((a, v) :: rest) ↔
      p = some a ∧ ∃ nx, h[a]? = some (.live ⟨v, nx⟩) ∧ ListAt h nx rest := by
  rw [ListAt]
  constructor
  · rintro ⟨hp, hm⟩
    refine ⟨hp, ?_⟩
    split at hm
    · next n hn =>
      obtain ⟨hd, ht⟩ := hm
      refine ⟨n.next, ?_, ht⟩
      rw [hn, ← hd]
    · exact hm.elim
  · rintro ⟨hp, nx, hn, ht⟩
    refine ⟨hp, ?_⟩
    rw [hn]
    exact ⟨rfl, ht⟩

/-- Every node of a list is a block that was handed out. -/
theorem ListAt_lt_length {h : List Cell} : ∀ {l : List (Nat × Int)} {p : Ptr},
    ListAt h p l → ∀ a ∈ l.map Prod.fst, a < h.length
  | [], _, _, a, ha => by simp at ha
  | (b, v) :: rest, p, hl, a, ha => by
    rw [ListAt_cons_iff] at hl
    obtain ⟨_, nx, hb, ht⟩ := hl
    simp only [List.map_cons, List.mem_cons] at ha
    rcases ha with rfl | ha
    · by_contra hge
      rw [List.getElem?_eq_none (by omega)] at hb
      cases hb
    · exact ListAt_lt_length ht a ha

/-- The chain from a pointer is determined by the memory. -/
theorem ListAt_unique {h : List Cell} : ∀ {l l' : List (Nat × Int)} {p : Ptr},
    ListAt h p l → ListAt h p l' → l = l'
  | [], [], _, _, _ => rfl
  | [], (b, w) :: _, p, h1, h2 => by
    rw [ListAt_nil_iff] at h1
    rw [ListAt_cons_iff] at h2
    rw [h1] at h2
    cases h2.1
  | (a, v) :: _, [], p, h1, h2 => by
    rw [ListAt_nil_iff] at h2
    rw [ListAt_cons_iff] at h1
    rw [h2] at h1
    cases h1.1
  | (a, v) :: rest, (b, w) :: rest', p, h1, h2 => by
    rw [ListAt_cons_iff] at h1 h2
    obtain ⟨hp, nx, hn, ht⟩ := h1
    obtain ⟨hp', nx', hn', ht'⟩ := h2
    rw [hp] at hp'
    cases hp'
    rw [hn] at hn'
    cases hn'
    rw [ListAt_unique ht ht']

/-- From every node of a list the rest of the chain is a strictly shorter list,
unless the node is the head. -/
theorem ListAt_suffix {h : List Cell} : ∀ {l : List (Nat × Int)} {p : Ptr},
    ListAt h p l → ∀ a ∈ l.map Prod.fst,
      ∃ l', ListAt h (some a) l' ∧ l'.length ≤ l.length
  | [], _, _, a, ha => by simp at ha
  | (b, v) :: rest, p, hl, a, ha => by
    have hl' := hl
    rw [ListAt_cons_iff] at hl
    obtain ⟨hp, nx, hb, ht⟩ := hl
    simp only [List.map_cons, List.mem_cons] at ha
    rcases ha with rfl | ha
    · exact ⟨(a, v) :: rest, hp ▸ hl', le_refl _⟩
    · obtain ⟨l', h1, h2⟩ := ListAt_suffix ht a ha
      exact ⟨l', h1, by simp only [List.length_cons]; omega⟩

/-- The head of a list is not one of the later nodes. -/
theorem ListAt_head_not_mem {h : List Cell} {p : Ptr} {a : Nat} {v : Int}
    {rest : List (Nat × Int)} (hl : ListAt h p ((a, v) :: rest)) :
    a ∉ rest.map Prod.fst := by
  intro ha
  have hl' := hl
  rw [ListAt_cons_iff] at hl
  obtain ⟨hp, nx, _, ht⟩ := hl
  obtain ⟨l', h1, h2⟩ := ListAt_suffix ht a ha
  have := ListAt_unique (hp ▸ hl') h1
  rw [← this] at h2
  simp only [List.length_cons] at h2
  omega

/-- The nodes of a list are pairwise different blocks: a list has no cycle. -/
theorem ListAt_nodup {h : List Cell} : ∀ {l : List (Nat × Int)} {p : Ptr},
    ListAt h p l → (l.map Prod.fst).Nodup
  | [], _, _ => by simp
  | (a, v) :: rest, p, hl => by
    have hnot := ListAt_head_not_mem hl
    rw [ListAt_cons_iff] at hl
    obtain ⟨_, nx, _, ht⟩ := hl
    simp only [List.map_cons, List.nodup_cons]
    exact ⟨hnot, ListAt_nodup ht⟩

/-- A list is not disturbed by handing out a new block. -/
theorem ListAt_append {h : List Cell} (c : Cell) : ∀ {l : List (Nat × Int)} {p : Ptr},
    ListAt h p l → ListAt (h ++ [c]) p l
  | [], _, hl => by rw [ListAt_nil_iff] at hl ⊢; exact hl
  | (a, v) :: rest, p, hl => by
    have hlt := ListAt_lt_length hl a (by simp)
    rw [ListAt_cons_iff] at hl ⊢
    obtain ⟨hp, nx, hn, ht⟩ := hl
    refine ⟨hp, nx, ?_, ListAt_append c ht⟩
    rw [List.getElem?_append_left hlt]
    exact hn

/-- A list is not disturbed by a write to a block outside it. -/
theorem ListAt_set {h : List Cell} (b : Nat) (c : Cell) : ∀ {l : List (Nat × Int)} {p : Ptr},
    ListAt h p l → b ∉ l.map Prod.fst → ListAt (h.set b c) p l
  | [], _, hl, _ => by rw [ListAt_nil_iff] at hl ⊢; exact hl
  | (a, v) :: rest, p, hl, hb => by
    rw [ListAt_cons_iff] at hl ⊢
    obtain ⟨hp, nx, hn, ht⟩ := hl
    simp only [List.map_cons, List.mem_cons, not_or] at hb
    refine ⟨hp, nx, ?_, ListAt_set b c ht hb.2⟩
    rw [List.getElem?_set_ne hb.1]
    exact hn

/-! ## The functions, step by step -/

theorem create_node_fails (s : State) (data : Int) :
    create_node .fails s data =
      .ok (printf s "Error: malloc failed in create_node\n", none) := rfl

theorem create_node_succeeds (junk : Node_t) (s : State) (data : Int) :
    create_node (.succeeds junk) s data =
      .ok ({ s with heap := s.heap ++ [.live ⟨data, none⟩] }, some s.heap.length) := by
  simp [create_node, malloc, store_data, store_next]

theorem insert_at_front_fails (s : State) (head : Ptr) (data : Int) :
    insert_at_front .fails s head data = .error .nullDeref := rfl

theorem insert_at_front_succeeds (junk : Node_t) (s : State) (head : Ptr) (data : Int) :
    insert_at_front (.succeeds junk) s head data =
      .ok ({ s with heap := s.heap ++ [.live ⟨data, head⟩] }, some s.heap.length) := by
  simp [insert_at_front, create_node_succeeds, store_next]

/-- After a successful insertion the list is the new node followed by the old list. -/
theorem ListAt_insert {s : State} {head : Ptr} {l : List (Nat × Int)} (v : Int)
    (hl : ListAt s.heap head l) :
    ListAt (s.heap ++ [Cell.live ⟨v, head⟩]) (some s.heap.length) ((s.heap.length, v) :: l) := by
  rw [ListAt_cons_iff]
  exact ⟨rfl, head, by simp, ListAt_append _ hl⟩

theorem render_append (xs ys : List Int) : render (xs ++ ys) = render xs ++ render ys := by
  induction xs with
  | nil => simp [render]
  | cons x xs ih => simp [render, ih, String.append_assoc]

/-- The loop of `print_list` on a list: it ends within one iteration per node
and writes the payloads from head to tail. -/
theorem print_list_loop_ok : ∀ (l : List (Nat × Int)) (k : Nat) (s : State) (p : Ptr),
    ListAt s.heap p l →
      print_list_loop (l.length + k) s p = .ok (printf s (render (l.map Prod.snd)))
  | [], k, s, p, hl => by
    rw [ListAt_nil_iff] at hl
    subst hl
    simp [print_list_loop, render, printf]
  | (a, v) :: rest, k, s, p, hl => by
    rw [ListAt_cons_iff] at hl
    obtain ⟨hp, nx, hn, ht⟩ := hl
    subst hp
    have hfuel : ((a, v) :: rest).length + k = (rest.length + k) + 1 := by
      simp only [List.length_cons]; omega
    rw [hfuel, print_list_loop]
    simp only [deref, hn]
    have ht' : ListAt (printf s (fmt_d v ++ " -> ")).heap nx rest := ht
    rw [print_list_loop_ok rest k _ nx ht']
    simp [printf, render, String.append_assoc]

theorem print_list_ok (l : List (Nat × Int)) (k : Nat) (s : State) (p : Ptr)
    (hl : ListAt s.heap p l) :
    print_list (l.length + k) s p =
      .ok (printf s ("List: [ " ++ render (l.map Prod.snd) ++ "NULL ]\n")) := by
  have hl' : ListAt (printf s "List: [ ").heap p l := hl
  rw [print_list, print_list_loop_ok l k _ p hl']
  simp [printf, String.append_assoc]

/-- The loop of `print_list` leaves memory and the record of releases alone. -/
theorem print_list_loop_frame : ∀ (fuel : Nat) (s s' : State) (p : Ptr),
    print_list_loop fuel s p = .ok s' → s'.heap = s.heap ∧ s'.freeLog = s.freeLog
  | _, s, s', none, h => by
    rw [print_list_loop] at h
    cases h
    exact ⟨rfl, rfl⟩
  | 0, s, s', some a, h => by
    rw [print_list_loop] at h
    cases h
  | fuel + 1, s, s', some a, h => by
    rw [print_list_loop] at h
    split at h
    · cases h
    · next n _ =>
      exact print_list_loop_frame fuel (printf s (fmt_d n.data ++ " -> ")) s' n.next h

theorem release_length : ∀ (as : List Nat) (h : List Cell), (release h as).length = h.length
  | [], h => rfl
  | a :: as, h => by rw [release, release_length as]; simp

theorem release_freed : ∀ (as : List Nat) (h : List Cell) (a : Nat),
    h[a]? = some .freed → (release h as)[a]? = some .freed
  | [], h, a, ha => ha
  | b :: as, h, a, ha => by
    rw [release]
    apply release_freed as
    by_cases hb : b = a
    · subst hb
      have : b < h.length := by
        by_contra hge
        rw [List.getElem?_eq_none (by omega)] at ha
        cases ha
      simp [List.getElem?_set_self, this]
    · rw [List.getElem?_set_ne hb]; exact ha

theorem release_mem : ∀ (as : List Nat) (h : List Cell) (a : Nat),
    a ∈ as → a < h.length → (release h as)[a]? = some .freed
  | b :: as, h, a, ha, hlt => by
    rw [release]
    by_cases hb : b = a
    · subst hb
      apply release_freed
      simp [List.getElem?_set_self, hlt]
    · have : a ∈ as := by
        rcases List.mem_cons.mp ha with h1 | h1
        · exact absurd h1.symm hb
        · exact h1
      exact release_mem as _ a this (by simpa using hlt)

theorem release_not_mem : ∀ (as : List Nat) (h : List Cell) (a : Nat),
    a ∉ as → (release h as)[a]? = h[a]?
  | [], h, a, _ => rfl
  | b :: as, h, a, ha => by
    simp only [List.mem_cons, not_or] at ha
    rw [release, release_not_mem as _ a ha.2, List.getElem?_set_ne (Ne.symm ha.1)]

/-- The loop of `free_list` on a list: it ends within one iteration per node,
releases the nodes from head to tail and nothing else. -/
theorem free_list_loop_ok : ∀ (l : List (Nat × Int)) (k : Nat) (s : State) (p : Ptr),
    ListAt s.heap p l →
      free_list_loop (l.length + k) s p =
        .ok { s with heap := release s.heap (l.map Prod.fst),
                     freeLog := s.freeLog ++ l.map Prod.fst }
  | [], k, s, p, hl => by
    rw [ListAt_nil_iff] at hl
    subst hl
    simp [free_list_loop, release]
  | (a, v) :: rest, k, s, p, hl => by
    have hnot := ListAt_head_not_mem hl
    rw [ListAt_cons_iff] at hl
    obtain ⟨hp, nx, hn, ht⟩ := hl
    subst hp
    have hfuel : ((a, v) :: rest).length + k = (rest.length + k) + 1 := by
      simp only [List.length_cons]; omega
    rw [hfuel, free_list_loop]
    simp only [deref, free, hn]
    have ht' : ListAt ({ s with heap := s.heap.set a .freed,
                                freeLog := s.freeLog ++ [a] } : State).heap nx rest :=
      ListAt_set a .freed ht hnot
    rw [free_list_loop_ok rest k _ nx ht']
    simp [release]

theorem free_list_ok (l : List (Nat × Int)) (k : Nat) (s : State) (p : Ptr)
    (hl : ListAt s.heap p l) :
    free_list (l.length + k) s p =
      .ok { heap := release s.heap (l.map Prod.fst),
            out := s.out ++ "Freeing list memory...\n" ++ "List freed.\n",
            freeLog := s.freeLog ++ l.map Prod.fst } := by
  have hl' : ListAt (printf s "Freeing list memory...\n").heap p l := hl
  rw [free_list, free_list_loop_ok l k _ p hl']
  simp [printf]

/-- Successful insertions into a list put the new values in front of it, the
last inserted first, and write nothing to standard output. -/
theorem insert_all_ok : ∀ (js : List (Node_t × Int)) (s : State) (head : Ptr)
    (l : List (Nat × Int)), ListAt s.heap head l →
      ∃ s1 head1 l1, insert_all (allSucceed js) s head = .ok (s1, head1) ∧
        ListAt s1.heap head1 l1 ∧
        l1.map Prod.snd = (js.map Prod.snd).reverse ++ l.map Prod.snd ∧
        l1.length = js.length + l.length ∧
        s1.out = s.out ∧ s1.freeLog = s.freeLog
  | [], s, head, l, hl => ⟨s, head, l, rfl, hl, by simp, by simp, rfl, rfl⟩
  | (j, v) :: rest, s, head, l, hl => by
    have hstep := ListAt_insert v hl
    obtain ⟨s1, head1, l1, hrun, hl1, hvals, hlen, hout, hlog⟩ :=
      insert_all_ok rest { s with heap := s.heap ++ [Cell.live ⟨v, head⟩] }
        (some s.heap.length) ((s.heap.length, v) :: l) hstep
    refine ⟨s1, head1, l1, ?_, hl1, ?_, ?_, hout, hlog⟩
    · simp only [allSucceed, List.map_cons, insert_all, insert_at_front_succeeds]
      exact hrun
    · rw [hvals]; simp
    · rw [hlen]; simp only [List.length_cons]; omega

/-- Printing from a released node reads released memory. -/
theorem print_list_freed (k : Nat) (s : State) (a : Nat) (h : s.heap[a]? = some .freed) :
    print_list (k + 1) s (some a) = .error .useAfterFree := by
  have h' : (printf s "List: [ ").heap[a]? = some .freed := h
  simp [print_list, print_list_loop, deref, h']

/-- Running `free_list` from a released node reads released memory. -/
theorem free_list_freed (k : Nat) (s : State) (a : Nat) (h : s.heap[a]? = some .freed) :
    free_list (k + 1) s (some a) = .error .useAfterFree := by
  have h' : (printf s "Freeing list memory...\n").heap[a]? = some .freed := h
  simp [free_list, free_list_loop, deref, h']

theorem free_list_null (fuel : Nat) (s : State) :
    free_list fuel s none =
      .ok { s with out := s.out ++ "Freeing list memory...\n" ++ "List freed.\n" } := by
  cases fuel <;> simp [free_list, free_list_loop, printf]

theorem print_list_null (fuel : Nat) (s : State) :
    print_list fuel s none = .ok (printf s "List: [ NULL ]\n") := by
  have h : "List: [ " ++ "NULL ]\n" = "List: [ NULL ]\n" := by decide
  cases fuel <;> simp [print_list, print_list_loop, printf, String.append_assoc, h]

/-- After the nodes of a list have been released, each of them is a released block. -/
theorem release_list {h : List Cell} {p : Ptr} {l : List (Nat × Int)} (hl : ListAt h p l) :
    ∀ a ∈ l.map Prod.fst, (release h (l.map Prod.fst))[a]? = some .freed :=
  fun a ha => release_mem _ h a ha (ListAt_lt_length hl a ha)

/-- The head pointer of a list is `NULL` exactly when the list has no node. -/
theorem ListAt_head_none_iff {h : List Cell} {p : Ptr} {l : List (Nat × Int)}
    (hl : ListAt h p l) : p = none ↔ l = [] := by
  cases l with
  | nil => simpa [ListAt_nil_iff] using hl
  | cons x rest =>
    obtain ⟨a, v⟩ := x
    rw [ListAt_cons_iff] at hl
    simp [hl.1]

/-- Whenever `print_list` returns, memory and the record of releases are as before. -/
theorem print_list_frame (fuel : Nat) (s s1 : State) (head : Ptr)
    (h : print_list fuel s head = .ok s1) : s1.heap = s.heap ∧ s1.freeLog = s.freeLog := by
  rw [print_list] at h
  split at h
  · cases h
  · next s2 h2 =>
    cases h
    exact print_list_loop_frame fuel (printf s "List: [ ") s2 head h2

/-! ## The properties of the list operations -/

set_option maxRecDepth 100000

/-- C1: inserting `v1`, ..., `vn` at the front of the empty list, every
allocation succeeding, and then printing writes exactly `"List: [ "`, then
`"vn -> "`, ..., `"v1 -> "`, then `"NULL ]\n"`; the insertions themselves
write nothing.  The loop of `print_list` needs no more than `n` iterations. -/
theorem insert_then_print_reversed (s : State) (js : List (Node_t × Int)) (k : Nat) :
    ∃ s1 head, insert_all (allSucceed js) s none = .ok (s1, head) ∧ s1.out = s.out ∧
      print_list (js.length + k) s1 head =
        .ok (printf s1 ("List: [ " ++ render (js.map Prod.snd).reverse ++ "NULL ]\n")) := by
  obtain ⟨s1, head1, l1, hrun, hl1, hvals, hlen, hout, _⟩ :=
    insert_all_ok js s none [] ((ListAt_nil_iff _ _).mpr rfl)
  refine ⟨s1, head1, hrun, hout, ?_⟩
  have h := print_list_ok l1 k s1 head1 hl1
  rw [hvals, hlen] at h
  simpa using h

/-- C2: a successful `insert_at_front(&head, v)` on a list with nodes `l`
leaves the list `v` followed by `l`: the new node is the head, it is a block
that was not in the list, and the old nodes follow with their payloads, in
their order. -/
theorem insert_at_front_prepends (junk : Node_t) (s : State) (head : Ptr)
    (l : List (Nat × Int)) (v : Int) (hl : ListAt s.heap head l) :
    ∃ s1 a, insert_at_front (.succeeds junk) s head v = .ok (s1, some a) ∧
      ListAt s1.heap (some a) ((a, v) :: l) ∧ a ∉ l.map Prod.fst := by
  refine ⟨_, _, insert_at_front_succeeds junk s head v, ListAt_insert v hl, ?_⟩
  intro hmem
  exact absurd (ListAt_lt_length hl _ hmem) (lt_irrefl _)

theorem insert_at_front_prepends_witness :
    ListAt (State.mk [.live ⟨10, none⟩] "" []).heap (some 0) [(0, 10)] ∧
    ∃ s1 a, insert_at_front (.succeeds ⟨7, some 5⟩) (State.mk [.live ⟨10, none⟩] "" [])
        (some 0) 20 = .ok (s1, some a) ∧
      ListAt s1.heap (some a) [(a, 20), (0, 10)] ∧ a ∉ [(0, 10)].map Prod.fst :=
  ⟨by decide, insert_at_front_prepends ⟨7, some 5⟩ (State.mk [.live ⟨10, none⟩] "" [])
    (some 0) [(0, 10)] 20 (by decide)⟩

/-- C3: on the list `20 -> 10`, an `insert_at_front` whose allocation fails
does not return with the list unchanged: it writes through the `NULL` that
`create_node` returned. -/
theorem insert_at_front_failure_not_atomic :
    insert_at_front .fails
        (State.mk [.live ⟨10, none⟩, .live ⟨20, some 0⟩] "" []) (some 1) 30 =
      .error .nullDeref := by
  decide

/-- C4: when the allocation fails, `create_node` returns `NULL` and
`insert_at_front` goes on to the assignment `newNode->next = *head` through
it, for every state, list and value. -/
theorem insert_at_front_null_dereference (s : State) (head : Ptr) (v : Int) :
    create_node .fails s v =
        .ok (printf s "Error: malloc failed in create_node\n", none) ∧
      store_next (printf s "Error: malloc failed in create_node\n") none head =
        .error .nullDeref ∧
      insert_at_front .fails s head v = .error .nullDeref :=
  ⟨rfl, rfl, rfl⟩

/-- C5, as stated, fails: in `level_11_linked_list` with all three allocations
succeeding, the local `head` still holds the address of the node `30` after
`free_list(head)`, and a `print_list` on it reads a released node. -/
theorem level_11_head_not_reset :
    level_11_linked_list 3 (.succeeds ⟨0, none⟩) (.succeeds ⟨0, none⟩) (.succeeds ⟨0, none⟩)
        init =
      .ok (State.mk [.freed, .freed, .freed]
        ("\n--- Level 11: Full Data Structure: Linked List ---\n" ++
          "List: [ NULL ]\n" ++ "List: [ 10 -> NULL ]\n" ++ "List: [ 20 -> 10 -> NULL ]\n" ++
          "List: [ 30 -> 20 -> 10 -> NULL ]\n" ++ "Freeing list memory...\n" ++
          "List freed.\n")
        [2, 1, 0], some 2) ∧
    print_list 3 (State.mk [.freed, .freed, .freed] "" [2, 1, 0]) (some 2) =
      .error .useAfterFree := by
  decide

/-- C5, amended: after any sequence of successful insertions into the empty
list, `free_list(head)` returns and has released every node of the list, and
the caller's `head` keeps its value: it is `NULL` exactly when nothing was
inserted, and otherwise it is the address of the released first node, so that
a `print_list` on it reads released memory instead of showing an empty list. -/
theorem free_list_releases_all_keeps_head (s : State) (js : List (Node_t × Int)) (k : Nat) :
    ∃ s1 head l s2, insert_all (allSucceed js) s none = .ok (s1, head) ∧
      ListAt s1.heap head l ∧ l.length = js.length ∧
      call_free_list (js.length + k) s1 head = .ok (s2, head) ∧
      (∀ a ∈ l.map Prod.fst, s2.heap[a]? = some .freed) ∧
      (head = none ↔ js = []) ∧
      print_list (k + 1) s2 head =
        if js = [] then .ok (printf s2 "List: [ NULL ]\n") else .error .useAfterFree := by
  obtain ⟨s1, head1, l1, hrun, hl1, _, hlen, _, _⟩ :=
    insert_all_ok js s none [] ((ListAt_nil_iff _ _).mpr rfl)
  simp only [List.length_nil, Nat.add_zero] at hlen
  have hfree := free_list_ok l1 k s1 head1 hl1
  rw [hlen] at hfree
  have hnil : l1 = [] ↔ js = [] := by
    rw [← List.length_eq_zero, ← List.length_eq_zero (l := js), hlen]
  have hhead := (ListAt_head_none_iff hl1).trans hnil
  refine ⟨s1, head1, l1,
    { heap := release s1.heap (l1.map Prod.fst),
      out := s1.out ++ "Freeing list memory...\n" ++ "List freed.\n",
      freeLog := s1.freeLog ++ l1.map Prod.fst },
    hrun, hl1, hlen, ?_, release_list hl1, hhead, ?_⟩
  · simp only [call_free_list, hfree]
  · by_cases hjs : js = []
    · rw [if_pos hjs, hhead.mpr hjs]
      exact print_list_null _ _
    · rw [if_neg hjs]
      cases l1 with
      | nil => exact absurd (hnil.mp rfl) hjs
      | cons x rest =>
        obtain ⟨a, v⟩ := x
        have hp := ((ListAt_cons_iff _ _ _ _ _).mp hl1).1
        rw [hp]
        exact print_list_freed k _ a (release_list hl1 a (by simp))

/-- C6, as stated, fails: on the one-node list `10`, the first `free_list`
releases the node and the second `free_list` on the same head reads the
released node. -/
theorem free_list_twice_reads_released :
    free_list 1 (State.mk [.live ⟨10, none⟩] "" []) (some 0) =
      .ok (State.mk [.freed] "Freeing list memory...\nList freed.\n" [0]) ∧
    free_list 1 (State.mk [.freed] "Freeing list memory...\nList freed.\n" [0]) (some 0) =
      .error .useAfterFree := by
  decide

/-- C6, amended: the first `free_list` on a list returns with every node
released.  A second `free_list` on the same head is a call that releases
nothing and returns only when the list is empty (head `NULL`); for a list with
at least one node it reads the released first node. -/
theorem free_list_twice (s : State) (head : Ptr) (l : List (Nat × Int)) (k j : Nat)
    (hl : ListAt s.heap head l) :
    ∃ s1, free_list (l.length + k) s head = .ok s1 ∧
      (∀ a ∈ l.map Prod.fst, s1.heap[a]? = some .freed) ∧
      free_list (j + 1) s1 head =
        if l = [] then
          .ok { s1 with out := s1.out ++ "Freeing list memory...\n" ++ "List freed.\n" }
        else .error .useAfterFree := by
  refine ⟨_, free_list_ok l k s head hl, release_list hl, ?_⟩
  cases l with
  | nil =>
    rw [if_pos rfl, (ListAt_nil_iff _ _).mp hl]
    exact free_list_null _ _
  | cons x rest =>
    obtain ⟨a, v⟩ := x
    rw [if_neg (List.cons_ne_nil _ _), ((ListAt_cons_iff _ _ _ _ _).mp hl).1]
    exact free_list_freed j _ a (release_list hl a (by simp))

theorem free_list_twice_witness :
    ListAt (State.mk [.live ⟨10, none⟩, .live ⟨20, some 0⟩] "" []).heap (some 1)
        [(1, 20), (0, 10)] ∧
    ∃ s1, free_list (2 + 0) (State.mk [.live ⟨10, none⟩, .live ⟨20, some 0⟩] "" [])
        (some 1) = .ok s1 ∧
      (∀ a ∈ [(1, 20), ((0 : Nat), (10 : Int))].map Prod.fst, s1.heap[a]? = some .freed) ∧
      free_list (0 + 1) s1 (some 1) =
        if [(1, 20), ((0 : Nat), (10 : Int))] = [] then
          .ok { s1 with out := s1.out ++ "Freeing list memory...\n" ++ "List freed.\n" }
        else .error .useAfterFree :=
  ⟨by decide, free_list_twice (State.mk [.live ⟨10, none⟩, .live ⟨20, some 0⟩] "" [])
    (some 1) [(1, 20), (0, 10)] 0 0 (by decide)⟩

/-- C7: on a list with nodes `n1, ..., nk`, `free_list` returns, and the calls
of `free` it makes are exactly `free(n1)`, ..., `free(nk)` in this order, the
nodes being pairwise different; afterwards each of them is released and every
other block is as before.  A read of a released node is the fault
`useAfterFree`, so the result shows that no successor is read after its node
was released. -/
theorem free_list_releases_each_node_once (s : State) (head : Ptr) (l : List (Nat × Int))
    (k : Nat) (hl : ListAt s.heap head l) :
    ∃ s1, free_list (l.length + k) s head = .ok s1 ∧
      s1.freeLog = s.freeLog ++ l.map Prod.fst ∧ (l.map Prod.fst).Nodup ∧
      (∀ a ∈ l.map Prod.fst, s1.heap[a]? = some .freed) ∧
      (∀ a, a ∉ l.map Prod.fst → s1.heap[a]? = s.heap[a]?) :=
  ⟨_, free_list_ok l k s head hl, rfl, ListAt_nodup hl, release_list hl,
    fun a ha => release_not_mem _ _ a ha⟩

theorem free_list_releases_each_node_once_witness :
    ListAt (State.mk [.live ⟨10, none⟩, .live ⟨20, some 0⟩, .live ⟨30, some 1⟩] "" []).heap
        (some 2) [(2, 30), (1, 20), (0, 10)] ∧
    ∃ s1, free_list ([(2, 30), (1, 20), ((0 : Nat), (10 : Int))].length + 0)
        (State.mk [.live ⟨10, none⟩, .live ⟨20, some 0⟩, .live ⟨30, some 1⟩] "" [])
        (some 2) = .ok s1 ∧
      s1.freeLog = [] ++ [(2, 30), (1, 20), ((0 : Nat), (10 : Int))].map Prod.fst ∧
      ([(2, 30), (1, 20), ((0 : Nat), (10 : Int))].map Prod.fst).Nodup ∧
      (∀ a ∈ [(2, 30), (1, 20), ((0 : Nat), (10 : Int))].map Prod.fst,
        s1.heap[a]? = some .freed) ∧
      (∀ a, a ∉ [(2, 30), (1, 20), ((0 : Nat), (10 : Int))].map Prod.fst →
        s1.heap[a]? = [Cell.live ⟨10, none⟩, .live ⟨20, some 0⟩, .live ⟨30, some 1⟩][a]?) :=
  ⟨by decide, free_list_releases_each_node_once
    (State.mk [.live ⟨10, none⟩, .live ⟨20, some 0⟩, .live ⟨30, some 1⟩] "" [])
    (some 2) [(2, 30), (1, 20), (0, 10)] 0 (by decide)⟩

/-- C8: `create_node(value)` always returns.  When the allocation fails it
returns `NULL` (after writing its error message) and memory is as before; when
it succeeds it returns the new block, which holds the payload `value` and the
successor `NULL`, whatever the block held when it was handed out.  These are
the only two outcomes of the allocation. -/
theorem create_node_result (s : State) (data : Int) :
    create_node .fails s data =
        .ok ({ s with out := s.out ++ "Error: malloc failed in create_node\n" }, none) ∧
    ∀ junk : Node_t,
      create_node (.succeeds junk) s data =
          .ok ({ s with heap := s.heap ++ [.live ⟨data, none⟩] }, some s.heap.length) ∧
        deref (s.heap ++ [.live ⟨data, none⟩]) (some s.heap.length) = .ok ⟨data, none⟩ := by
  refine ⟨rfl, fun junk => ⟨create_node_succeeds junk s data, ?_⟩⟩
  simp [deref]

/-- C9: `print_list(NULL)` returns without reading any node and writes
exactly `"List: [ NULL ]\n"`. -/
theorem print_list_empty (fuel : Nat) (s : State) :
    print_list fuel s none =
      .ok { s with out := s.out ++ "List: [ NULL ]\n" } :=
  print_list_null fuel s

/-- C10: `print_list` on a list returns a state that differs from the one
before only in the text written: memory, and with it the payload and successor
of every node, is the same, the head (passed by value) still starts the same
list, and a second `print_list` writes the same text again. -/
theorem print_list_leaves_list (s : State) (head : Ptr) (l : List (Nat × Int)) (k : Nat)
    (hl : ListAt s.heap head l) :
    ∃ o s1, print_list (l.length + k) s head = .ok s1 ∧
      s1.out = s.out ++ o ∧ s1.heap = s.heap ∧ s1.freeLog = s.freeLog ∧
      ListAt s1.heap head l ∧
      print_list (l.length + k) s1 head = .ok { s1 with out := s1.out ++ o } :=
  ⟨"List: [ " ++ render (l.map Prod.snd) ++ "NULL ]\n", _, print_list_ok l k s head hl,
    rfl, rfl, rfl, hl, print_list_ok l k _ head hl⟩

theorem print_list_leaves_list_witness :
    ListAt (State.mk [.live ⟨10, none⟩, .live ⟨20, some 0⟩] "" []).heap (some 1)
        [(1, 20), (0, 10)] ∧
    ∃ o s1, print_list ([(1, 20), ((0 : Nat), (10 : Int))].length + 0)
        (State.mk [.live ⟨10, none⟩, .live ⟨20, some 0⟩] "" []) (some 1) = .ok s1 ∧
      s1.out = "" ++ o ∧ s1.heap = [.live ⟨10, none⟩, .live ⟨20, some 0⟩] ∧
      s1.freeLog = [] ∧
      ListAt s1.heap (some 1) [(1, 20), (0, 10)] ∧
      print_list ([(1, 20), ((0 : Nat), (10 : Int))].length + 0) s1 (some 1) =
        .ok { s1 with out := s1.out ++ o } :=
  ⟨by decide, print_list_leaves_list (State.mk [.live ⟨10, none⟩, .live ⟨20, some 0⟩] "" [])
    (some 1) [(1, 20), (0, 10)] 0 (by decide)⟩

/-! ## Length, frame, acyclicity and the number of loop iterations -/

/-- The chain of a list reaches `NULL` in as many steps as it has nodes. -/
theorem reachesNull_of_ListAt {h : List Cell} : ∀ {l : List (Nat × Int)} {p : Ptr},
    ListAt h p l → reachesNull h l.length p = true
  | [], p, hl => by
    rw [ListAt_nil_iff] at hl
    subst hl
    simp [reachesNull]
  | (a, v) :: rest, p, hl => by
    rw [ListAt_cons_iff] at hl
    obtain ⟨hp, nx, hn, ht⟩ := hl
    subst hp
    simp only [List.length_cons, reachesNull, hn]
    exact reachesNull_of_ListAt ht

/-- A chain that reaches `NULL` within `n` steps is a list of at most `n` nodes. -/
theorem ListAt_of_reachesNull {h : List Cell} : ∀ (n : Nat) (p : Ptr),
    reachesNull h n p = true → ∃ l, ListAt h p l ∧ l.length ≤ n
  | _, none, _ => ⟨[], (ListAt_nil_iff _ _).mpr rfl, Nat.zero_le _⟩
  | 0, some a, hr => by simp [reachesNull] at hr
  | n + 1, some a, hr => by
    rw [reachesNull] at hr
    split at hr
    · next nd hnd =>
      obtain ⟨l, hl, hlen⟩ := ListAt_of_reachesNull n nd.next hr
      refine ⟨(a, nd.data) :: l, ?_, by simp only [List.length_cons]; omega⟩
      rw [ListAt_cons_iff]
      exact ⟨rfl, nd.next, hnd, hl⟩
    · cases hr

theorem Acyclic_iff_ListAt (h : List Cell) (p : Ptr) : Acyclic h p ↔ ∃ l, ListAt h p l := by
  constructor
  · rintro ⟨n, hn⟩
    obtain ⟨l, hl, _⟩ := ListAt_of_reachesNull n p hn
    exact ⟨l, hl⟩
  · rintro ⟨l, hl⟩
    exact ⟨l.length, reachesNull_of_ListAt hl⟩

/-- With fewer iterations than the list has nodes the loop of `print_list` is
still running when the bound is used up. -/
theorem print_list_loop_short : ∀ (l : List (Nat × Int)) (m : Nat) (s : State) (p : Ptr),
    ListAt s.heap p l → m < l.length → print_list_loop m s p = .error .outOfFuel
  | [], m, s, p, _, hm => by simp at hm
  | (a, v) :: rest, m, s, p, hl, hm => by
    rw [ListAt_cons_iff] at hl
    obtain ⟨hp, nx, hn, ht⟩ := hl
    subst hp
    cases m with
    | zero => rfl
    | succ m =>
      rw [print_list_loop]
      simp only [deref, hn]
      have ht' : ListAt (printf s (fmt_d v ++ " -> ")).heap nx rest := ht
      exact print_list_loop_short rest m _ nx ht' (by simpa using hm)

/-- With fewer iterations than the list has nodes the loop of `free_list` is
still running when the bound is used up. -/
theorem free_list_loop_short : ∀ (l : List (Nat × Int)) (m : Nat) (s : State) (p : Ptr),
    ListAt s.heap p l → m < l.length → free_list_loop m s p = .error .outOfFuel
  | [], m, s, p, _, hm => by simp at hm
  | (a, v) :: rest, m, s, p, hl, hm => by
    have hnot := ListAt_head_not_mem hl
    rw [ListAt_cons_iff] at hl
    obtain ⟨hp, nx, hn, ht⟩ := hl
    subst hp
    cases m with
    | zero => rfl
    | succ m =>
      rw [free_list_loop]
      simp only [deref, free, hn]
      have ht' : ListAt ({ s with heap := s.heap.set a .freed,
                                  freeLog := s.freeLog ++ [a] } : State).heap nx rest :=
        ListAt_set a .freed ht hnot
      exact free_list_loop_short rest m _ nx ht' (by simpa using hm)

/-- The loop of `print_list` on a list, for every bound: it needs exactly one
iteration per node. -/
theorem print_list_loop_exact (l : List (Nat × Int)) (m : Nat) (s : State) (p : Ptr)
    (hl : ListAt s.heap p l) :
    print_list_loop m s p =
      if m < l.length then .error .outOfFuel
      else .ok (printf s (render (l.map Prod.snd))) := by
  by_cases hm : m < l.length
  · rw [if_pos hm]
    exact print_list_loop_short l m s p hl hm
  · rw [if_neg hm]
    have h := print_list_loop_ok l (m - l.length) s p hl
    rwa [Nat.add_sub_cancel' (Nat.le_of_not_lt hm)] at h

/-- The loop of `free_list` on a list, for every bound: it needs exactly one
iteration per node. -/
theorem free_list_loop_exact (l : List (Nat × Int)) (m : Nat) (s : State) (p : Ptr)
    (hl : ListAt s.heap p l) :
    free_list_loop m s p =
      if m < l.length then .error .outOfFuel
      else .ok { s with heap := release s.heap (l.map Prod.fst),
                        freeLog := s.freeLog ++ l.map Prod.fst } := by
  by_cases hm : m < l.length
  · rw [if_pos hm]
    exact free_list_loop_short l m s p hl hm
  · rw [if_neg hm]
    have h := free_list_loop_ok l (m - l.length) s p hl
    rwa [Nat.add_sub_cancel' (Nat.le_of_not_lt hm)] at h

/-- C11: a successful `insert_at_front` on a list returns a list with exactly
one node more; the only block written is the new one, appended to memory, so
every node that was in the list has the payload and successor it had. -/
theorem insert_at_front_length_frame (junk : Node_t) (s : State) (head : Ptr)
    (l : List (Nat × Int)) (v : Int) (hl : ListAt s.heap head l) :
    ∃ s1 head1 l1, insert_at_front (.succeeds junk) s head v = .ok (s1, head1) ∧
      ListAt s1.heap head1 l1 ∧ l1.length = l.length + 1 ∧
      s1.heap = s.heap ++ [.live ⟨v, head⟩] ∧
      (∀ a ∈ l.map Prod.fst, s1.heap[a]? = s.heap[a]?) ∧
      s1.out = s.out ∧ s1.freeLog = s.freeLog := by
  refine ⟨_, _, _, insert_at_front_succeeds junk s head v, ListAt_insert v hl, rfl, rfl,
    ?_, rfl, rfl⟩
  intro a ha
  exact List.getElem?_append_left (ListAt_lt_length hl a ha)

theorem insert_at_front_length_frame_witness :
    ListAt (State.mk [.live ⟨10, none⟩, .live ⟨20, some 0⟩] "" []).heap (some 1)
        [(1, 20), (0, 10)] ∧
    ∃ s1 head1 l1, insert_at_front (.succeeds ⟨7, some 5⟩)
        (State.mk [.live ⟨10, none⟩, .live ⟨20, some 0⟩] "" []) (some 1) 30 =
          .ok (s1, head1) ∧
      ListAt s1.heap head1 l1 ∧
      l1.length = [(1, 20), ((0 : Nat), (10 : Int))].length + 1 ∧
      s1.heap = [.live ⟨10, none⟩, .live ⟨20, some 0⟩] ++ [.live ⟨30, some 1⟩] ∧
      (∀ a ∈ [(1, 20), ((0 : Nat), (10 : Int))].map Prod.fst,
        s1.heap[a]? = [Cell.live ⟨10, none⟩, .live ⟨20, some 0⟩][a]?) ∧
      s1.out = "" ∧ s1.freeLog = [] :=
  ⟨by decide, insert_at_front_length_frame ⟨7, some 5⟩
    (State.mk [.live ⟨10, none⟩, .live ⟨20, some 0⟩] "" []) (some 1) [(1, 20), (0, 10)] 30
    (by decide)⟩

/-- C12: `free_list(NULL)` returns for every bound on its loop, also the bound
of no iteration at all: it reads no node, calls `free` for none, leaves memory
as it was, and the caller's head is still `NULL`. -/
theorem free_list_empty_noop (fuel : Nat) (s : State) :
    call_free_list fuel s none =
      .ok ({ s with out := s.out ++ "Freeing list memory...\n" ++ "List freed.\n" }, none) := by
  simp only [call_free_list, free_list_null]

/-- C13: the empty list reaches `NULL` in finitely many steps; a successful
`insert_at_front` on a chain that does yields a chain that does, its new head
being a block handed out by this call; hence after any sequence of successful
insertions into the empty list the chain reaches `NULL` and its nodes are
pairwise different blocks. -/
theorem acyclic_invariant (s : State) :
    Acyclic s.heap none ∧
    (∀ (head : Ptr) (junk : Node_t) (v : Int), Acyclic s.heap head →
      ∃ s1, insert_at_front (.succeeds junk) s head v = .ok (s1, some s.heap.length) ∧
        s.heap.length < s1.heap.length ∧ Acyclic s1.heap (some s.heap.length)) ∧
    (∀ js : List (Node_t × Int), ∃ s1 head1 l,
      insert_all (allSucceed js) s none = .ok (s1, head1) ∧ Acyclic s1.heap head1 ∧
        ListAt s1.heap head1 l ∧ (l.map Prod.fst).Nodup) := by
  refine ⟨⟨0, rfl⟩, ?_, ?_⟩
  · intro head junk v hac
    obtain ⟨l, hl⟩ := (Acyclic_iff_ListAt _ _).mp hac
    refine ⟨_, insert_at_front_succeeds junk s head v, by simp, ?_⟩
    exact (Acyclic_iff_ListAt _ _).mpr ⟨_, ListAt_insert v hl⟩
  · intro js
    obtain ⟨s1, head1, l1, hrun, hl1, _⟩ :=
      insert_all_ok js s none [] ((ListAt_nil_iff _ _).mpr rfl)
    exact ⟨s1, head1, l1, hrun, (Acyclic_iff_ListAt _ _).mpr ⟨l1, hl1⟩, hl1, ListAt_nodup hl1⟩

theorem acyclic_invariant_witness :
    Acyclic (State.mk [.live ⟨10, none⟩, .live ⟨20, some 0⟩] "" []).heap (some 1) ∧
    ∃ s1, insert_at_front (.succeeds ⟨7, some 5⟩)
        (State.mk [.live ⟨10, none⟩, .live ⟨20, some 0⟩] "" []) (some 1) 30 =
          .ok (s1, some 2) ∧
      2 < s1.heap.length ∧ Acyclic s1.heap (some 2) :=
  ⟨⟨2, by decide⟩,
    (acyclic_invariant (State.mk [.live ⟨10, none⟩, .live ⟨20, some 0⟩] "" [])).2.1
      (some 1) ⟨7, some 5⟩ 30 ⟨2, by decide⟩⟩

/-- C14: on the list made by `n` successful insertions into the empty list,
`print_list` and `free_list` return, and their loops run exactly `n`
iterations: with a bound of `n` or more iterations they end, with any smaller
bound they are still running when it is used up.  The iterations go from head
to tail: the payloads are written, and the nodes released, in list order. -/
theorem traversals_visit_each_node_once (s : State) (js : List (Node_t × Int)) :
    ∃ s1 head l, insert_all (allSucceed js) s none = .ok (s1, head) ∧
      ListAt s1.heap head l ∧ l.length = js.length ∧
      l.map Prod.snd = (js.map Prod.snd).reverse ∧
      (∀ m, print_list_loop m s1 head =
        if m < js.length then .error .outOfFuel
        else .ok (printf s1 (render (l.map Prod.snd)))) ∧
      (∀ m, free_list_loop m s1 head =
        if m < js.length then .error .outOfFuel
        else .ok { s1 with heap := release s1.heap (l.map Prod.fst),
                           freeLog := s1.freeLog ++ l.map Prod.fst }) ∧
      print_list js.length s1 head =
        .ok (printf s1 ("List: [ " ++ render (l.map Prod.snd) ++ "NULL ]\n")) ∧
      free_list js.length s1 head =
        .ok { heap := release s1.heap (l.map Prod.fst),
              out := s1.out ++ "Freeing list memory...\n" ++ "List freed.\n",
              freeLog := s1.freeLog ++ l.map Prod.fst } := by
  obtain ⟨s1, head1, l1, hrun, hl1, hvals, hlen, _, _⟩ :=
    insert_all_ok js s none [] ((ListAt_nil_iff _ _).mpr rfl)
  simp only [List.length_nil, Nat.add_zero] at hlen
  simp only [List.map_nil, List.append_nil] at hvals
  refine ⟨s1, head1, l1, hrun, hl1, hlen, hvals, ?_, ?_, ?_, ?_⟩
  · intro m
    rw [← hlen]
    exact print_list_loop_exact l1 m s1 head1 hl1
  · intro m
    rw [← hlen]
    exact free_list_loop_exact l1 m s1 head1 hl1
  · have h := print_list_ok l1 0 s1 head1 hl1
    rwa [Nat.add_zero, hlen] at h
  · have h := free_list_ok l1 0 s1 head1 hl1
    rwa [Nat.add_zero, hlen] at h

end LinkedList

namespace Level5

/-- C15, on the code: when the allocation of `dynamicArray` succeeds and the
one of `s3_ptr` fails, `level_5_structs_memory` goes on to
`strcpy(s3_ptr->name, "Ali")` through the `NULL` it got, whereas a failed
allocation of `dynamicArray` is tested and reported. -/
theorem level_5_struct_allocation_unchecked :
    level_5_structs_memory 5 true false init = .error .nullDeref ∧
    (∀ s : State, strcpy_ptr_name s none "Ali" = .error .nullDeref) ∧
    level_5_structs_memory 5 false false init =
      .ok (State.mk []
        ("\n--- Level 5: Structs & Memory Management ---\n" ++
          "Student (s1) Name: Ahmed, ID: 101\n" ++ "Failed to allocate memory!\n")) := by
  refine ⟨by decide, fun _ => rfl, by decide⟩

end Level5

namespace Storage

theorem fmt_d_small : LinkedList.fmt_d 1 = "1" ∧ LinkedList.fmt_d 2 = "2" ∧
    LinkedList.fmt_d 3 = "3" := by decide

/-- One call of `static_counter_function` below `INT_MAX`. -/
theorem static_counter_function_step (s : State) (h : s.counter < INT_MAX) :
    static_counter_function s =
      some { s with counter := s.counter + 1,
                    out := s.out ++ "Static counter is now: " ++
                      LinkedList.fmt_d (s.counter + 1) ++ "\n" } := by
  simp [static_counter_function, h, printf, String.append_assoc]

/-- The first `n` calls since the counter was initialised. -/
theorem calls_ok : ∀ (n : Nat) (s : State), s.counter = 0 → (n : Int) ≤ INT_MAX →
    calls n s = some { s with counter := n, out := s.out ++ counter_lines n }
  | 0, s, h0, _ => by
    have : s.out ++ "" = s.out := by simp
    simp [calls, counter_lines, ← h0, this]
  | n + 1, s, h0, hn => by
    have hn' : (n : Int) < INT_MAX := by
      unfold INT_MAX at hn ⊢
      push_cast at hn
      omega
    have hle : (n : Int) ≤ INT_MAX := Int.le_of_lt hn'
    rw [calls, calls_ok n s h0 hle]
    simp only
    rw [static_counter_function_step
      { s with counter := n, out := s.out ++ counter_lines n } hn']
    simp [counter_lines, String.append_assoc]

/-- C16: `counter` starts at 0 and keeps its value between calls: counting from
a state in which it still has its initial value, the `k`-th call of
`static_counter_function` (for `1 ≤ k ≤ INT_MAX`) finds `k - 1`, stores `k` and
writes `"Static counter is now: k\n"`; the three calls in
`level_10_storage_cli` write 1, 2 and 3. -/
theorem static_counter_kth_call (s : State) (k : Nat) (h0 : s.counter = 0) (hk1 : 1 ≤ k)
    (hk : (k : Int) ≤ INT_MAX) :
    ∃ s1, calls (k - 1) s = some s1 ∧ s1.counter = (k : Int) - 1 ∧
      static_counter_function s1 =
        some { s1 with counter := k,
                       out := s1.out ++ "Static counter is now: " ++
                         LinkedList.fmt_d k ++ "\n" } ∧
      level_10_storage_cli s =
        some { s with counter := 3,
                      out := s.out ++ "\n--- Level 10: Storage Classes & CLI Arguments ---\n" ++
                        "File-scope static var: " ++ LinkedList.fmt_d s.file_scope_var ++ "\n" ++
                        "Calling static_counter_function 3 times:\n" ++
                        "Static counter is now: 1\n" ++ "Static counter is now: 2\n" ++
                        "Static counter is now: 3\n" ++
                        "See the 'main' function for the CLI argument demo.\n" } := by
  obtain ⟨j, rfl⟩ : ∃ j, k = j + 1 := ⟨k - 1, by omega⟩
  have hj : (j : Int) < INT_MAX := by
    unfold INT_MAX at hk ⊢
    push_cast at hk
    omega
  have hle : (j : Int) ≤ INT_MAX := Int.le_of_lt hj
  refine ⟨_, calls_ok j s h0 hle, by simp, ?_, ?_⟩
  · rw [static_counter_function_step
      { s with counter := j, out := s.out ++ counter_lines j } hj]
    simp
  · obtain ⟨f, c, o⟩ := s
    simp only at h0
    subst h0
    simp [level_10_storage_cli, static_counter_function, printf, INT_MAX, fmt_d_small,
      String.append_assoc]
    rw [← String.append_assoc "\n--- Level 10: Storage Classes & CLI Arguments ---\n"]
    rfl

theorem static_counter_kth_call_witness :
    program_start.counter = 0 ∧ 1 ≤ 3 ∧ ((3 : Nat) : Int) ≤ INT_MAX ∧
    ∃ s1, calls (3 - 1) program_start = some s1 ∧ s1.counter = ((3 : Nat) : Int) - 1 ∧
      static_counter_function s1 =
        some { s1 with counter := ((3 : Nat) : Int),
                       out := s1.out ++ "Static counter is now: " ++
                         LinkedList.fmt_d ((3 : Nat) : Int) ++ "\n" } ∧
      level_10_storage_cli program_start =
        some { program_start with
          counter := 3,
          out := program_start.out ++ "\n--- Level 10: Storage Classes & CLI Arguments ---\n" ++
            "File-scope static var: " ++ LinkedList.fmt_d program_start.file_scope_var ++ "\n" ++
            "Calling static_counter_function 3 times:\n" ++
            "Static counter is now: 1\n" ++ "Static counter is now: 2\n" ++
            "Static counter is now: 3\n" ++
            "See the 'main' function for the CLI argument demo.\n" } :=
  ⟨by decide, by decide, by decide,
    static_counter_kth_call program_start 3 (by decide) (by decide) (by decide)⟩

end Storage
